import Mathlib

/-!
# Verification of the Asteroids game core (src/index.ts)

Shallow embedding of the pure game core of the repository: the vector
algebra, the `Body`/`State` data model, the integrator `moveBody` with
`torusWrap`, the collision and fragmentation pipeline `handleCollisions`,
the per-tick update `tick`, and the event reducer `reduceState`.

Modelling conventions:
* JS numbers are modelled as rationals (`ℚ`); all arithmetic in the core is
  exact in the claims under study, none of which concerns float rounding.
* `Math.cos`/`Math.sin` (used only through `Vec.rotate`) are modelled by an
  explicit parameter `trig : ℚ → ℚ × ℚ` mapping an angle in degrees to the
  pair (cos, sin) of its radian conversion.  Concrete instantiations fix the
  exact values the float library also produces at the sampled angles
  (e.g. cos 0 = 1, sin 0 = 0 exactly).
* The source's `a.pos.sub(b.pos).len() < a.radius + b.radius` (with
  `len = Math.sqrt(x*x+y*y)`) is embedded without the square root as
  `0 < r ∧ d2 < r^2` where `d2` is the squared length and
  `r = a.radius + b.radius`; the lemma `bodiesCollided_iff_sqrt` below
  proves this equivalent to the square-root formulation over `ℝ`.
* `Math.random()` initial rock directions and the object counter are kept
  explicit: the initial state is parametrised by the direction choices,
  matching the spec's note that deterministic analysis must supply them.
-/

namespace Asteroids

/-- A simple immutable 2D vector (class `Vec` in the source). -/
structure Vec where
  x : ℚ
  y : ℚ
deriving DecidableEq, Repr

namespace Vec

/-- `add = (b) => new Vec(this.x + b.x, this.y + b.y)` -/
def add (a b : Vec) : Vec := ⟨a.x + b.x, a.y + b.y⟩

/-- `scale = (s) => new Vec(this.x*s, this.y*s)` -/
def scale (a : Vec) (s : ℚ) : Vec := ⟨a.x * s, a.y * s⟩

/-- `sub = (b) => this.add(b.scale(-1))` -/
def sub (a b : Vec) : Vec := a.add (b.scale (-1))

/-- `ortho = () => new Vec(this.y, -this.x)` -/
def ortho (a : Vec) : Vec := ⟨a.y, -a.x⟩

/-- The squared length of a vector; the source's `len()` is
`Math.sqrt` of this quantity. -/
def len2 (a : Vec) : ℚ := a.x * a.x + a.y * a.y

/-- `rotate = (deg) => ...` rotates by `deg` degrees: with
`(c, s) = trig deg` standing for `(Math.cos rad, Math.sin rad)` where
`rad = π·deg/180`, returns `(x·c − y·s, x·s + y·c)`. -/
def rotate (trig : ℚ → ℚ × ℚ) (deg : ℚ) (v : Vec) : Vec :=
  ⟨v.x * (trig deg).1 - v.y * (trig deg).2, v.x * (trig deg).2 + v.y * (trig deg).1⟩

/-- `static unitVecInDirection = (deg) => new Vec(0,-1).rotate(deg)` -/
def unitVecInDirection (trig : ℚ → ℚ × ℚ) (deg : ℚ) : Vec :=
  rotate trig deg ⟨0, -1⟩

/-- `static Zero = new Vec()` -/
def Zero : Vec := ⟨0, 0⟩

end Vec

/-- `type ViewType = 'ship' | 'rock' | 'bullet'` -/
inductive ViewType where
  | ship
  | rock
  | bullet
deriving DecidableEq, Repr

/-- The string a `ViewType` contributes to an id (`viewType + oid`). -/
def viewTypeStr : ViewType → String
  | .ship => "ship"
  | .rock => "rock"
  | .bullet => "bullet"

/-- Every object that participates in physics is a `Body` (source `type Body`). -/
structure Body where
  id : String
  viewType : ViewType
  pos : Vec
  vel : Vec
  acc : Vec
  angle : ℚ
  rotation : ℚ
  torque : ℚ
  radius : ℚ
  createTime : ℚ
deriving DecidableEq, Repr

/-- Game state (source `type State`). -/
structure State where
  time : ℚ
  ship : Body
  bullets : List Body
  rocks : List Body
  exit : List Body
  objCount : ℕ
  gameOver : Bool
deriving DecidableEq, Repr

namespace Constants

/-- `CanvasSize: 600` -/
def CanvasSize : ℚ := 600

/-- `BulletExpirationTime: 1000` -/
def BulletExpirationTime : ℚ := 1000

/-- `BulletRadius: 3` -/
def BulletRadius : ℚ := 3

/-- `BulletVelocity: 2` -/
def BulletVelocity : ℚ := 2

/-- `StartRockRadius: 30` -/
def StartRockRadius : ℚ := 30

/-- `StartRocksCount: 5` -/
def StartRocksCount : ℕ := 5

/-- `RotationAcc: 0.1` -/
def RotationAcc : ℚ := 1/10

/-- `ThrustAcc: 0.1` -/
def ThrustAcc : ℚ := 1/10

/-- `StartTime: 0` -/
def StartTime : ℚ := 0

end Constants

/-- `createCircle = (viewType)=>(oid)=>(time)=>(radius)=>(pos)=>(vel)=> {...}`;
object ids in the source are minted from the integer counter `objCount`, so
`oid` is a natural number and `String(oid)` is its decimal representation. -/
def createCircle (viewType : ViewType) (oid : ℕ) (time radius : ℚ) (pos vel : Vec) : Body :=
  { createTime := time
    pos := pos
    vel := vel
    acc := Vec.Zero
    angle := 0
    rotation := 0
    torque := 0
    radius := radius
    id := viewTypeStr viewType ++ Nat.repr oid
    viewType := viewType }

/-- `function createShip()` -/
def createShip : Body :=
  { id := "ship"
    viewType := .ship
    pos := ⟨Constants.CanvasSize / 2, Constants.CanvasSize / 2⟩
    vel := Vec.Zero
    acc := Vec.Zero
    angle := 0
    rotation := 0
    torque := 0
    radius := 20
    createTime := 0 }

/-- `startRocks`: the `new Vec(0.5 - Math.random(), 0.5 - Math.random())`
velocities are supplied externally as `dirs`. -/
def startRocks (dirs : ℕ → Vec) : List Body :=
  (List.range Constants.StartRocksCount).map fun i =>
    createCircle .rock i Constants.StartTime Constants.StartRockRadius Vec.Zero (dirs i)

/-- `initialState`, parametrised by the random rock directions. -/
def initialState (dirs : ℕ → Vec) : State :=
  { time := 0
    ship := createShip
    bullets := []
    rocks := startRocks dirs
    exit := []
    objCount := Constants.StartRocksCount
    gameOver := false }

/-- The inner `wrap` of `torusWrap`:
`wrap = (v) => v < 0 ? v + s : v > s ? v - s : v`. -/
def wrapCoord (v : ℚ) : ℚ :=
  if v < 0 then v + Constants.CanvasSize
  else if v > Constants.CanvasSize then v - Constants.CanvasSize
  else v

/-- `torusWrap = ({x,y}) => new Vec(wrap(x), wrap(y))` -/
def torusWrap (p : Vec) : Vec := ⟨wrapCoord p.x, wrapCoord p.y⟩

/-- `moveBody = (o) => {...o, rotation: o.rotation+o.torque, angle: o.angle+o.rotation,
pos: torusWrap(o.pos.add(o.vel)), vel: o.vel.add(o.acc)}` -/
def moveBody (o : Body) : Body :=
  { o with
    rotation := o.rotation + o.torque
    angle := o.angle + o.rotation
    pos := torusWrap (o.pos.add o.vel)
    vel := o.vel.add o.acc }

/-- `bodiesCollided = ([a,b]) => a.pos.sub(b.pos).len() < a.radius + b.radius`.
Embedded without the square root: for `d2 ≥ 0`,
`Real.sqrt d2 < r ↔ 0 < r ∧ d2 < r^2` (proved as `bodiesCollided_iff_sqrt`). -/
def bodiesCollided (a b : Body) : Bool :=
  decide (0 < a.radius + b.radius ∧ (a.pos.sub b.pos).len2 < (a.radius + b.radius) ^ 2)

/-- Utility `flatMap(a, f) = Array.prototype.concat(...a.map(f))`. -/
def flatMap {α β : Type} (a : List α) (f : α → List β) : List β := (a.map f).flatten

/-- `shipCollided = s.rocks.filter(r => bodiesCollided([s.ship,r])).length > 0` -/
def shipCollided (s : State) : Bool :=
  decide (0 < (s.rocks.filter fun r => bodiesCollided s.ship r).length)

/-- `allBulletsAndRocks = flatMap(s.bullets, b => s.rocks.map(r => [b,r]))` -/
def allBulletsAndRocks (s : State) : List (Body × Body) :=
  flatMap s.bullets fun b => s.rocks.map fun r => (b, r)

/-- `collidedBulletsAndRocks = allBulletsAndRocks.filter(bodiesCollided)` -/
def collidedBulletsAndRocks (s : State) : List (Body × Body) :=
  (allBulletsAndRocks s).filter fun p => bodiesCollided p.1 p.2

/-- `collidedBullets = collidedBulletsAndRocks.map(([bullet,_]) => bullet)` -/
def collidedBullets (s : State) : List Body :=
  (collidedBulletsAndRocks s).map Prod.fst

/-- `collidedRocks = collidedBulletsAndRocks.map(([_,rock]) => rock)` -/
def collidedRocks (s : State) : List Body :=
  (collidedBulletsAndRocks s).map Prod.snd

/-- The anonymous `{radius, pos, vel}` record produced by `child`. -/
structure Circ where
  radius : ℚ
  pos : Vec
  vel : Vec
deriving DecidableEq, Repr

/-- `child = (r,dir) => ({radius: r.radius/2, pos: r.pos, vel: r.vel.ortho().scale(dir)})` -/
def child (r : Body) (dir : ℚ) : Circ :=
  ⟨r.radius / 2, r.pos, r.vel.ortho.scale dir⟩

/-- `spawnChildren = (r) => r.radius >= Constants.StartRockRadius/4 ? [child(r,1), child(r,-1)] : []` -/
def spawnChildren (r : Body) : List Circ :=
  if r.radius ≥ Constants.StartRockRadius / 4 then [child r 1, child r (-1)] else []

/-- `newRocks = flatMap(collidedRocks, spawnChildren)
  .map((r,i) => createCircle('rock')(s.objCount+i)(s.time)(r.radius)(r.pos)(r.vel))` -/
def newRocks (s : State) : List Body :=
  (flatMap (collidedRocks s) spawnChildren).enum.map fun p =>
    createCircle .rock (s.objCount + p.1) s.time p.2.radius p.2.pos p.2.vel

/-- `elem = (a) => (e) => a.findIndex(b => b.id === e.id) >= 0` -/
def elem (a : List Body) (e : Body) : Bool := a.any fun b => b.id == e.id

/-- `except = (a) => (b) => a.filter(not(elem(b)))` -/
def except (a : List Body) (b : List Body) : List Body := a.filter fun e => !elem b e

/-- `handleCollisions = (s) => {...}` -/
def handleCollisions (s : State) : State :=
  { s with
    bullets := except s.bullets (collidedBullets s)
    rocks := except s.rocks (collidedRocks s) ++ newRocks s
    exit := s.exit ++ collidedBullets s ++ collidedRocks s
    objCount := s.objCount + (newRocks s).length
    gameOver := shipCollided s }

/-- `expired = (b) => (elapsed - b.createTime) > 100` -/
def expired (elapsed : ℚ) (b : Body) : Bool := decide (elapsed - b.createTime > 100)

/-- `expiredBullets = s.bullets.filter(expired)` -/
def expiredBullets (s : State) (elapsed : ℚ) : List Body :=
  s.bullets.filter (expired elapsed)

/-- `activeBullets = s.bullets.filter(not(expired))` -/
def activeBullets (s : State) (elapsed : ℚ) : List Body :=
  s.bullets.filter fun b => !expired elapsed b

/-- The object literal `tick` passes to `handleCollisions`:
`{...s, ship: moveBody(s.ship), bullets: activeBullets.map(moveBody),
rocks: s.rocks.map(moveBody), exit: expiredBullets, time: elapsed}`. -/
def movedState (s : State) (elapsed : ℚ) : State :=
  { s with
    ship := moveBody s.ship
    bullets := (activeBullets s elapsed).map moveBody
    rocks := s.rocks.map moveBody
    exit := expiredBullets s elapsed
    time := elapsed }

/-- `tick = (s, elapsed) => handleCollisions({...})` -/
def tick (s : State) (elapsed : ℚ) : State :=
  handleCollisions (movedState s elapsed)

/-- The four game state transition classes `Tick | Rotate | Thrust | Shoot`. -/
inductive Event where
  | Tick (elapsed : ℚ)
  | Rotate (direction : ℚ)
  | Thrust (isOn : Bool)
  | Shoot
deriving DecidableEq, Repr

/-- `reduceState = (s, e) => ...` — the state transducer.  `trig` models
`Math.cos`/`Math.sin` as used by `Vec.unitVecInDirection`. -/
def reduceState (trig : ℚ → ℚ × ℚ) (s : State) (e : Event) : State :=
  match e with
  | .Rotate direction => { s with ship := { s.ship with torque := direction } }
  | .Thrust isOn =>
      { s with ship := { s.ship with
          acc := if isOn then (Vec.unitVecInDirection trig s.ship.angle).scale Constants.ThrustAcc
                 else Vec.Zero } }
  | .Shoot =>
      { s with
        bullets := s.bullets ++
          [(fun unitVec =>
              createCircle .bullet s.objCount s.time Constants.BulletRadius
                (s.ship.pos.add (unitVec.scale s.ship.radius))
                (s.ship.vel.add (unitVec.scale Constants.BulletVelocity)))
            (Vec.unitVecInDirection trig s.ship.angle)]
        objCount := s.objCount + 1 }
  | .Tick elapsed => tick s elapsed

/-- A state reachable by folding `reduceState` over any event sequence from
an initial state (for any choice of random rock directions). -/
inductive Reachable (trig : ℚ → ℚ × ℚ) : State → Prop where
  | init (dirs : ℕ → Vec) : Reachable trig (initialState dirs)
  | step {s : State} (e : Event) : Reachable trig s → Reachable trig (reduceState trig s e)

/-- A run of the reducer, as a relation: `RunSeq trig s es ss` holds when
folding the reducer over the event list `es` from `s` emits exactly the
state sequence `ss` (one state per event, as the source's `scan` does). -/
inductive RunSeq (trig : ℚ → ℚ × ℚ) : State → List Event → List State → Prop where
  | nil (s : State) : RunSeq trig s [] []
  | cons {s : State} (e : Event) {es : List Event} {ss : List State} :
      RunSeq trig (reduceState trig s e) es ss →
      RunSeq trig s (e :: es) (reduceState trig s e :: ss)

/-- Trig values with cos 0 = 1, sin 0 = 0 — the exact values `Math.cos`/
`Math.sin` also produce at angle 0, the only angle sampled in the concrete
scenarios below (the craft never rotates in them). -/
def trigZero : ℚ → ℚ × ℚ := fun _ => (1, 0)

/-- Concrete choice of initial rock directions: all zero. -/
def dirsZero : ℕ → Vec := fun _ => Vec.Zero

/-- Numeric value of a decimal digit character. -/
def digitVal (c : Char) : ℕ := c.toNat - 48

/-- Decimal value of a most-significant-first digit string. -/
def parseDigits (l : List Char) : ℕ := l.foldl (fun a c => 10 * a + digitVal c) 0

/-! Concrete states and bodies used in the counterexamples and witnesses. -/

/-- A terminated state: `gameOver = true`, nothing else going on. -/
def sTerm : State :=
  { time := 0, ship := createShip, bullets := [], rocks := [], exit := [],
    objCount := 5, gameOver := true }

/-- A body with nonzero torque, to separate the two orientation-update readings. -/
def bodyTorque : Body :=
  { id := "rock0", viewType := .rock, pos := Vec.Zero, vel := Vec.Zero, acc := Vec.Zero,
    angle := 0, rotation := 0, torque := 1, radius := 30, createTime := 0 }

/-- A body inside the canvas whose single step lands exactly on the boundary. -/
def bodyEdge : Body :=
  { id := "rock0", viewType := .rock, pos := ⟨300, 0⟩, vel := ⟨300, 0⟩, acc := Vec.Zero,
    angle := 0, rotation := 0, torque := 0, radius := 30, createTime := 0 }

/-- One projectile coincident with two obstacles (all at the origin), craft far away. -/
def sOneBulletTwoRocks : State :=
  { time := 0
    ship := createShip
    bullets := [createCircle .bullet 5 0 Constants.BulletRadius Vec.Zero Vec.Zero]
    rocks := [createCircle .rock 0 0 Constants.StartRockRadius Vec.Zero Vec.Zero,
              createCircle .rock 1 0 Constants.StartRockRadius Vec.Zero Vec.Zero]
    exit := []
    objCount := 7
    gameOver := false }

/-- Two projectiles coincident with one large obstacle, craft far away. -/
def sTwoBulletsOneRock : State :=
  { time := 0
    ship := createShip
    bullets := [createCircle .bullet 5 0 Constants.BulletRadius Vec.Zero Vec.Zero,
                createCircle .bullet 6 0 Constants.BulletRadius Vec.Zero Vec.Zero]
    rocks := [createCircle .rock 0 0 Constants.StartRockRadius Vec.Zero ⟨1, 0⟩]
    exit := []
    objCount := 7
    gameOver := false }

/-- A state holding one projectile of age exactly 100 at time of the next tick. -/
def sAgedBullet : State :=
  { time := 0, ship := createShip,
    bullets := [createCircle .bullet 5 0 Constants.BulletRadius ⟨100, 100⟩ Vec.Zero],
    rocks := [], exit := [], objCount := 6, gameOver := false }

/-- Thrust once, then 76 clock ticks: drives the craft from the centre to
within 20 units of the top edge (final craft `y = 15`). -/
def driveToEdge : List Event := Event.Thrust true :: List.replicate 76 (Event.Tick 1)

/-! ## Decimal representation: `Nat.repr` is injective

The ids the game mints are `viewType ++ String(counter)`; uniqueness of ids
reduces to injectivity of the decimal representation, proved here by a
parse-back argument about `Nat.toDigitsCore`. -/

theorem toDigitsCore_acc (fuel : ℕ) : ∀ (n : ℕ) (acc : List Char),
    Nat.toDigitsCore 10 fuel n acc = Nat.toDigitsCore 10 fuel n [] ++ acc := by
  induction fuel with
  | zero => intro n acc; simp [Nat.toDigitsCore]
  | succ f ih =>
    intro n acc
    simp only [Nat.toDigitsCore]
    by_cases h : n / 10 = 0
    · simp [h]
    · simp only [h, if_neg]
      rw [ih (n / 10) (Nat.digitChar (n % 10) :: acc), ih (n / 10) [Nat.digitChar (n % 10)]]
      simp

theorem toDigitsCore_fuel : ∀ (n f1 f2 : ℕ), n < f1 → n < f2 →
    Nat.toDigitsCore 10 f1 n [] = Nat.toDigitsCore 10 f2 n [] := by
  intro n
  induction n using Nat.strong_induction_on with
  | _ n ih =>
    intro f1 f2 h1 h2
    obtain ⟨g1, rfl⟩ : ∃ g1, f1 = g1 + 1 := ⟨f1 - 1, by omega⟩
    obtain ⟨g2, rfl⟩ : ∃ g2, f2 = g2 + 1 := ⟨f2 - 1, by omega⟩
    simp only [Nat.toDigitsCore]
    by_cases h : n / 10 = 0
    · simp [h]
    · simp only [h, if_neg]
      have hn : 0 < n := by
        rcases Nat.eq_zero_or_pos n with h0 | h0
        · exact absurd (by simp [h0]) h
        · exact h0
      have hdiv : n / 10 < n := Nat.div_lt_self hn (by norm_num)
      rw [toDigitsCore_acc g1, toDigitsCore_acc g2,
        ih (n / 10) hdiv g1 g2 (by omega) (by omega)]

theorem digitVal_digitChar (d : ℕ) (h : d < 10) : digitVal (Nat.digitChar d) = d := by
  interval_cases d <;> rfl

theorem parseDigits_append_one (l : List Char) (c : Char) :
    parseDigits (l ++ [c]) = 10 * parseDigits l + digitVal c := by
  simp [parseDigits, List.foldl_append]

theorem parseDigits_toDigits : ∀ n : ℕ, parseDigits (Nat.toDigits 10 n) = n := by
  intro n
  induction n using Nat.strong_induction_on with
  | _ n ih =>
    by_cases h : n / 10 = 0
    · have hn : n < 10 := by omega
      simp only [Nat.toDigits, Nat.toDigitsCore, h, if_pos]
      show parseDigits [Nat.digitChar (n % 10)] = n
      rw [Nat.mod_eq_of_lt hn]
      simp [parseDigits, digitVal_digitChar n hn]
    · have hn : 0 < n := by
        rcases Nat.eq_zero_or_pos n with h0 | h0
        · exact absurd (by simp [h0]) h
        · exact h0
      have hdiv : n / 10 < n := Nat.div_lt_self hn (by norm_num)
      have step : Nat.toDigits 10 n =
          Nat.toDigits 10 (n / 10) ++ [Nat.digitChar (n % 10)] := by
        show Nat.toDigitsCore 10 (n + 1) n [] = _
        simp only [Nat.toDigitsCore, h, if_neg]
        rw [toDigitsCore_acc, toDigitsCore_fuel (n / 10) n (n / 10 + 1) (by omega) (by omega)]
        rfl
      rw [step, parseDigits_append_one, ih (n / 10) hdiv,
        digitVal_digitChar _ (Nat.mod_lt n (by norm_num))]
      omega

theorem natRepr_injective : Function.Injective Nat.repr := by
  intro m n h
  have hd : Nat.toDigits 10 m = Nat.toDigits 10 n := by
    have := congrArg String.data h
    simpa [Nat.repr, List.asString] using this
  calc m = parseDigits (Nat.toDigits 10 m) := (parseDigits_toDigits m).symm
    _ = parseDigits (Nat.toDigits 10 n) := by rw [hd]
    _ = n := parseDigits_toDigits n

/-! ## Facts about the minted id strings -/

theorem append_repr_inj {p : String} {m n : ℕ}
    (h : p ++ Nat.repr m = p ++ Nat.repr n) : m = n := by
  have hd := congrArg String.data h
  rw [String.data_append, String.data_append] at hd
  exact natRepr_injective (String.ext (List.append_cancel_left hd))

theorem rockId_ne_bulletId (m n : ℕ) : "rock" ++ Nat.repr m ≠ "bullet" ++ Nat.repr n := by
  intro h
  have hd := congrArg String.data h
  rw [String.data_append, String.data_append] at hd
  have hr : "rock".data = ['r', 'o', 'c', 'k'] := rfl
  have hb : "bullet".data = ['b', 'u', 'l', 'l', 'e', 't'] := rfl
  rw [hr, hb] at hd
  simp only [List.cons_append, List.nil_append] at hd
  injection hd with h1 _
  exact absurd h1 (by decide)

theorem shipId_ne_rockId (n : ℕ) : "ship" ≠ "rock" ++ Nat.repr n := by
  intro h
  have hd := congrArg String.data h
  rw [String.data_append] at hd
  have hs : "ship".data = ['s', 'h', 'i', 'p'] := rfl
  have hr : "rock".data = ['r', 'o', 'c', 'k'] := rfl
  rw [hs, hr] at hd
  simp only [List.cons_append, List.nil_append] at hd
  injection hd with h1 _
  exact absurd h1 (by decide)

theorem shipId_ne_bulletId (n : ℕ) : "ship" ≠ "bullet" ++ Nat.repr n := by
  intro h
  have hd := congrArg String.data h
  rw [String.data_append] at hd
  have hs : "ship".data = ['s', 'h', 'i', 'p'] := rfl
  have hb : "bullet".data = ['b', 'u', 'l', 'l', 'e', 't'] := rfl
  rw [hs, hb] at hd
  simp only [List.cons_append, List.nil_append] at hd
  injection hd with h1 _
  exact absurd h1 (by decide)

/-! ## List-level helpers about the collision pipeline -/

theorem mem_flatMap {α β : Type} {a : List α} {f : α → List β} {x : β} :
    x ∈ flatMap a f ↔ ∃ y ∈ a, x ∈ f y := by
  simp [flatMap]

theorem flatMap_cons {α β : Type} (x : α) (xs : List α) (f : α → List β) :
    flatMap (x :: xs) f = f x ++ flatMap xs f := by
  simp [flatMap]

theorem mem_spawnChildren {c : Circ} {r : Body} (h : c ∈ spawnChildren r) :
    Constants.StartRockRadius / 4 ≤ r.radius ∧ (c = child r 1 ∨ c = child r (-1)) := by
  unfold spawnChildren at h
  split_ifs at h with hr
  · simp only [List.mem_cons, List.mem_singleton, List.not_mem_nil, or_false] at h
    exact ⟨hr, h⟩
  · simp at h

theorem spawnChildren_below (r : Body)
    (h : r.radius < Constants.StartRockRadius / 4) : spawnChildren r = [] := by
  unfold spawnChildren
  rw [if_neg (by exact not_le.mpr h)]

theorem length_flatMap_spawnChildren (l : List Body) :
    (flatMap l spawnChildren).length =
      2 * (l.filter fun r => Constants.StartRockRadius / 4 ≤ r.radius).length := by
  induction l with
  | nil => rfl
  | cons r rs ih =>
    rw [flatMap_cons, List.length_append, ih, List.filter_cons]
    by_cases h : Constants.StartRockRadius / 4 ≤ r.radius
    · rw [if_pos (by exact decide_eq_true h)]
      simp [spawnChildren, h, Nat.mul_add, Nat.add_comm]
    · rw [if_neg (by simpa using h)]
      simp [spawnChildren_below r (not_le.mp h)]

theorem newRocks_map_id (s : State) :
    (newRocks s).map Body.id =
      (List.range (flatMap (collidedRocks s) spawnChildren).length).map
        fun i => "rock" ++ Nat.repr (s.objCount + i) := by
  unfold newRocks
  rw [List.map_map]
  have hc : (Body.id ∘ fun p : ℕ × Circ =>
      createCircle .rock (s.objCount + p.1) s.time p.2.radius p.2.pos p.2.vel)
      = (fun i => "rock" ++ Nat.repr (s.objCount + i)) ∘ Prod.fst := rfl
  rw [hc, ← List.map_map, List.enum_map_fst]

theorem newRocks_length (s : State) :
    (newRocks s).length = (flatMap (collidedRocks s) spawnChildren).length := by
  simp [newRocks]

theorem mem_newRocks {s : State} {c : Body} (h : c ∈ newRocks s) :
    ∃ spec ∈ flatMap (collidedRocks s) spawnChildren, ∃ i,
      c = createCircle .rock (s.objCount + i) s.time spec.radius spec.pos spec.vel := by
  unfold newRocks at h
  rw [List.mem_map] at h
  obtain ⟨p, hp, rfl⟩ := h
  obtain ⟨hlt, hx⟩ := List.mem_enum hp
  exact ⟨p.2, hx ▸ List.getElem_mem hlt, p.1, rfl⟩

theorem mem_newRocks_id {s : State} {c : Body} (h : c ∈ newRocks s) :
    ∃ i < (newRocks s).length, c.id = "rock" ++ Nat.repr (s.objCount + i) := by
  have hmem : c.id ∈ (newRocks s).map Body.id := List.mem_map_of_mem Body.id h
  rw [newRocks_map_id] at hmem
  rw [List.mem_map] at hmem
  obtain ⟨i, hi, hid⟩ := hmem
  rw [List.mem_range] at hi
  exact ⟨i, by rw [newRocks_length]; exact hi, hid.symm⟩

/-! ## The id-uniqueness invariant -/

/-- Invariant carried through every transition: the craft keeps the literal id
`"ship"`; every projectile (obstacle) id is `"bullet"` (resp. `"rock"`)
followed by the decimal of a counter value below `objCount`; and the ids are
duplicate-free within each collection. -/
def GoodIds (s : State) : Prop :=
  s.ship.id = "ship" ∧
  (∀ b ∈ s.bullets, ∃ n, n < s.objCount ∧ b.id = "bullet" ++ Nat.repr n) ∧
  (∀ r ∈ s.rocks, ∃ n, n < s.objCount ∧ r.id = "rock" ++ Nat.repr n) ∧
  (s.bullets.map Body.id).Nodup ∧
  (s.rocks.map Body.id).Nodup

theorem goodIds_initialState (dirs : ℕ → Vec) : GoodIds (initialState dirs) := by
  refine ⟨rfl, by simp [initialState], ?_, by simp [initialState], ?_⟩
  · intro r hr
    simp only [initialState, startRocks, List.mem_map, List.mem_range] at hr
    obtain ⟨i, hi, rfl⟩ := hr
    exact ⟨i, hi, rfl⟩
  · show ((startRocks dirs).map Body.id).Nodup
    have hmap : (startRocks dirs).map Body.id =
        (List.range Constants.StartRocksCount).map fun i => "rock" ++ Nat.repr i := by
      rw [startRocks, List.map_map]
      rfl
    rw [hmap]
    exact (List.nodup_range _).map fun a b hab => append_repr_inj hab

theorem goodIds_handleCollisions {s : State} (h : GoodIds s) :
    GoodIds (handleCollisions s) := by
  obtain ⟨hship, hb, hr, hbn, hrn⟩ := h
  refine ⟨hship, ?_, ?_, ?_, ?_⟩
  · intro b hbmem
    have hmem : b ∈ s.bullets := (List.filter_sublist _).subset hbmem
    obtain ⟨n, hn, hid⟩ := hb b hmem
    exact ⟨n, Nat.lt_of_lt_of_le hn (Nat.le_add_right _ _), hid⟩
  · intro r hrmem
    rcases List.mem_append.mp hrmem with hmem | hmem
    · have hmem' : r ∈ s.rocks := (List.filter_sublist _).subset hmem
      obtain ⟨n, hn, hid⟩ := hr r hmem'
      exact ⟨n, Nat.lt_of_lt_of_le hn (Nat.le_add_right _ _), hid⟩
    · obtain ⟨i, hi, hid⟩ := mem_newRocks_id hmem
      exact ⟨s.objCount + i, Nat.add_lt_add_left hi _, hid⟩
  · exact hbn.sublist ((List.filter_sublist _).map _)
  · show ((except s.rocks (collidedRocks s) ++ newRocks s).map Body.id).Nodup
    rw [List.map_append, List.nodup_append]
    refine ⟨hrn.sublist ((List.filter_sublist _).map _), ?_, ?_⟩
    · rw [newRocks_map_id]
      refine (List.nodup_range _).map fun a b hab => ?_
      have := append_repr_inj hab
      omega
    · intro x hx hx'
      rw [List.mem_map] at hx
      obtain ⟨r, hrm, rfl⟩ := hx
      have hrm' : r ∈ s.rocks := (List.filter_sublist _).subset hrm
      obtain ⟨n, hn, hid⟩ := hr r hrm'
      rw [newRocks_map_id, List.mem_map] at hx'
      obtain ⟨i, _, hid'⟩ := hx'
      rw [hid] at hid'
      have := append_repr_inj hid'.symm
      omega

theorem map_id_map_moveBody (l : List Body) :
    (l.map moveBody).map Body.id = l.map Body.id := by
  rw [List.map_map]
  rfl

theorem goodIds_movedState {s : State} (elapsed : ℚ) (h : GoodIds s) :
    GoodIds (movedState s elapsed) := by
  obtain ⟨hship, hb, hr, hbn, hrn⟩ := h
  refine ⟨hship, ?_, ?_, ?_, ?_⟩
  · intro b hbmem
    have hbmem' : b ∈ (activeBullets s elapsed).map moveBody := hbmem
    rw [List.mem_map] at hbmem'
    obtain ⟨b0, hb0, rfl⟩ := hbmem'
    have : b0 ∈ s.bullets := (List.filter_sublist _).subset hb0
    exact hb b0 this
  · intro r hrmem
    have hrmem' : r ∈ s.rocks.map moveBody := hrmem
    rw [List.mem_map] at hrmem'
    obtain ⟨r0, hr0, rfl⟩ := hrmem'
    exact hr r0 hr0
  · show (((activeBullets s elapsed).map moveBody).map Body.id).Nodup
    rw [map_id_map_moveBody]
    exact hbn.sublist ((List.filter_sublist _).map _)
  · show ((s.rocks.map moveBody).map Body.id).Nodup
    rw [map_id_map_moveBody]
    exact hrn

theorem goodIds_reduceState (trig : ℚ → ℚ × ℚ) {s : State} (e : Event)
    (h : GoodIds s) : GoodIds (reduceState trig s e) := by
  cases e with
  | Tick elapsed => exact goodIds_handleCollisions (goodIds_movedState elapsed h)
  | Rotate direction => exact h
  | Thrust isOn => exact h
  | Shoot =>
    obtain ⟨hship, hb, hr, hbn, hrn⟩ := h
    refine ⟨hship, ?_, ?_, ?_, hrn⟩
    · intro b hbmem
      rcases List.mem_append.mp hbmem with hmem | hmem
      · obtain ⟨n, hn, hid⟩ := hb b hmem
        exact ⟨n, Nat.lt_succ_of_lt hn, hid⟩
      · rw [List.mem_singleton] at hmem
        exact ⟨s.objCount, Nat.lt_succ_self _, by rw [hmem]; rfl⟩
    · intro r hrmem
      obtain ⟨n, hn, hid⟩ := hr r hrmem
      exact ⟨n, Nat.lt_succ_of_lt hn, hid⟩
    · show ((s.bullets ++
          [createCircle .bullet s.objCount s.time Constants.BulletRadius
            (s.ship.pos.add ((Vec.unitVecInDirection trig s.ship.angle).scale s.ship.radius))
            (s.ship.vel.add
              ((Vec.unitVecInDirection trig s.ship.angle).scale
                Constants.BulletVelocity))]).map Body.id).Nodup
      rw [List.map_append, List.nodup_append]
      refine ⟨hbn, List.nodup_singleton _, ?_⟩
      intro x hx hx'
      rw [List.mem_map] at hx
      obtain ⟨b, hbm, rfl⟩ := hx
      obtain ⟨n, hn, hid⟩ := hb b hbm
      rw [List.map_singleton, List.mem_singleton] at hx'
      have : b.id = "bullet" ++ Nat.repr s.objCount := hx'
      rw [hid] at this
      have := append_repr_inj this
      omega

theorem reachable_goodIds {trig : ℚ → ℚ × ℚ} {s : State}
    (h : Reachable trig s) : GoodIds s := by
  induction h with
  | init dirs => exact goodIds_initialState dirs
  | step e _ ih => exact goodIds_reduceState _ e ih

theorem goodIds_all_ids_nodup {s : State} (h : GoodIds s) :
    (s.ship.id :: (s.bullets ++ s.rocks).map Body.id).Nodup := by
  obtain ⟨hship, hb, hr, hbn, hrn⟩ := h
  rw [List.map_append, List.nodup_cons, List.nodup_append]
  refine ⟨?_, hbn, hrn, ?_⟩
  · rw [List.mem_append]
    rintro (hx | hx) <;> rw [List.mem_map] at hx
    · obtain ⟨b, hbm, hid⟩ := hx
      obtain ⟨n, _, hbid⟩ := hb b hbm
      rw [hship] at hid
      rw [hbid] at hid
      exact shipId_ne_bulletId n hid.symm
    · obtain ⟨r, hrm, hid⟩ := hx
      obtain ⟨n, _, hrid⟩ := hr r hrm
      rw [hship] at hid
      rw [hrid] at hid
      exact shipId_ne_rockId n hid.symm
  · intro x hx hx'
    rw [List.mem_map] at hx hx'
    obtain ⟨b, hbm, rfl⟩ := hx
    obtain ⟨r, hrm, hid⟩ := hx'
    obtain ⟨n, _, hbid⟩ := hb b hbm
    obtain ⟨m, _, hrid⟩ := hr r hrm
    rw [hbid] at hid
    rw [hrid] at hid
    exact rockId_ne_bulletId m n hid

/-! ## Supporting lemmas for the remaining claims -/

theorem len2_nonneg (v : Vec) : 0 ≤ v.len2 :=
  add_nonneg (mul_self_nonneg _) (mul_self_nonneg _)

/-- Justification of the square-root-free embedding of the collision test:
over the reals, `bodiesCollided a b` agrees with the source's
`sqrt(d·d) < a.radius + b.radius`. -/
theorem bodiesCollided_iff_sqrt (a b : Body) :
    bodiesCollided a b = true ↔
      Real.sqrt (((a.pos.sub b.pos).len2 : ℚ) : ℝ) < ((a.radius : ℝ) + (b.radius : ℝ)) := by
  rw [bodiesCollided, decide_eq_true_iff]
  constructor
  · rintro ⟨hpos, hlt⟩
    have hpos' : (0 : ℝ) < (a.radius : ℝ) + b.radius := by exact_mod_cast hpos
    rw [Real.sqrt_lt' hpos']
    have : (((a.pos.sub b.pos).len2 : ℚ) : ℝ) < (((a.radius + b.radius) ^ 2 : ℚ) : ℝ) := by
      exact_mod_cast hlt
    calc (((a.pos.sub b.pos).len2 : ℚ) : ℝ) < (((a.radius + b.radius) ^ 2 : ℚ) : ℝ) := this
      _ = ((a.radius : ℝ) + b.radius) ^ 2 := by push_cast; ring
  · intro hs
    have hpos' : (0 : ℝ) < (a.radius : ℝ) + b.radius :=
      lt_of_le_of_lt (Real.sqrt_nonneg _) hs
    refine ⟨by exact_mod_cast hpos', ?_⟩
    have := (Real.sqrt_lt' hpos').mp hs
    have hcast : (((a.pos.sub b.pos).len2 : ℚ) : ℝ) < (((a.radius + b.radius) ^ 2 : ℚ) : ℝ) := by
      calc (((a.pos.sub b.pos).len2 : ℚ) : ℝ) < ((a.radius : ℝ) + b.radius) ^ 2 := this
        _ = (((a.radius + b.radius) ^ 2 : ℚ) : ℝ) := by push_cast; ring
    exact_mod_cast hcast

theorem shipCollided_iff (s : State) :
    shipCollided s = true ↔ ∃ r ∈ s.rocks, bodiesCollided s.ship r = true := by
  rw [shipCollided, decide_eq_true_iff, List.length_pos_iff_exists_mem]
  constructor
  · rintro ⟨r, hr⟩
    rw [List.mem_filter] at hr
    exact ⟨r, hr.1, hr.2⟩
  · rintro ⟨r, hmem, hcol⟩
    exact ⟨r, List.mem_filter.mpr ⟨hmem, hcol⟩⟩

theorem wrapCoord_bounds {x vx : ℚ} (h0 : 0 ≤ x) (h1 : x < Constants.CanvasSize)
    (hlo : -Constants.CanvasSize < vx) (hhi : vx < Constants.CanvasSize) :
    0 ≤ wrapCoord (x + vx) ∧ wrapCoord (x + vx) ≤ Constants.CanvasSize := by
  unfold wrapCoord Constants.CanvasSize at *
  split_ifs with ha hb
  · constructor <;> linarith
  · constructor <;> linarith
  · constructor <;> linarith

theorem wrapCoord_cases (v : ℚ) :
    wrapCoord v = v ∨ wrapCoord v = v + Constants.CanvasSize ∨
      wrapCoord v = v - Constants.CanvasSize := by
  unfold wrapCoord
  split_ifs <;> tauto

theorem coord_lt_of_len2_lt {v : Vec} (h : v.len2 < Constants.CanvasSize ^ 2) :
    (-Constants.CanvasSize < v.x ∧ v.x < Constants.CanvasSize) ∧
    (-Constants.CanvasSize < v.y ∧ v.y < Constants.CanvasSize) := by
  unfold Vec.len2 Constants.CanvasSize at *
  refine ⟨⟨?_, ?_⟩, ?_, ?_⟩
  · nlinarith [mul_self_nonneg v.y, mul_self_nonneg (v.x + 600)]
  · nlinarith [mul_self_nonneg v.y, mul_self_nonneg (v.x - 600)]
  · nlinarith [mul_self_nonneg v.x, mul_self_nonneg (v.y + 600)]
  · nlinarith [mul_self_nonneg v.x, mul_self_nonneg (v.y - 600)]

theorem count_filter_eq (p : Body → Bool) (l : List Body) (a : Body) :
    (l.filter p).count a = if p a then l.count a else 0 := by
  induction l with
  | nil => simp
  | cons x xs ih =>
    by_cases hax : x = a
    · subst hax
      by_cases hx : p x = true <;>
        simp [List.filter_cons, hx, List.count_cons, ih]
    · have hbeq : (x == a) = false := beq_eq_false_iff_ne.mpr hax
      by_cases hx : p x = true <;>
        simp [List.filter_cons, hx, List.count_cons, ih, hbeq]

theorem count_fst_collided (bs rs : List Body) (q : Body → Body → Bool) (b : Body) :
    (((flatMap bs fun x => rs.map fun r => (x, r)).filter fun p => q p.1 p.2).map
        Prod.fst).count b
      = bs.count b * (rs.filter fun r => q b r).length := by
  induction bs with
  | nil => simp [flatMap]
  | cons x xs ih =>
    rw [flatMap_cons, List.filter_append, List.map_append, List.count_append, ih,
      List.count_cons]
    have hpairFst : Prod.fst ∘ (fun r : Body => (x, r)) = fun _ : Body => x := rfl
    have hpairPred : ((fun p : Body × Body => q p.1 p.2) ∘ fun r : Body => (x, r))
        = fun r : Body => q x r := rfl
    have hhead : ((rs.map fun r => (x, r)).filter fun p => q p.1 p.2).map Prod.fst
        = List.replicate (rs.filter fun r => q x r).length x := by
      rw [List.filter_map, List.map_map, hpairPred, hpairFst, List.map_const']
    rw [hhead, List.count_replicate]
    by_cases hax : x = b
    · subst hax
      simp [Nat.add_mul]
      ring
    · simp [hax]

theorem count_snd_collided (bs rs : List Body) (q : Body → Body → Bool) (r : Body) :
    (((flatMap bs fun x => rs.map fun r' => (x, r')).filter fun p => q p.1 p.2).map
        Prod.snd).count r
      = (bs.filter fun x => q x r).length * rs.count r := by
  induction bs with
  | nil => simp [flatMap]
  | cons x xs ih =>
    rw [flatMap_cons, List.filter_append, List.map_append, List.count_append, ih,
      List.filter_cons]
    have hpairSnd : Prod.snd ∘ (fun r' : Body => (x, r')) = id := rfl
    have hpairPred : ((fun p : Body × Body => q p.1 p.2) ∘ fun r' : Body => (x, r'))
        = fun r' : Body => q x r' := rfl
    have hhead : ((rs.map fun r' => (x, r')).filter fun p => q p.1 p.2).map Prod.snd
        = rs.filter fun r' => q x r' := by
      rw [List.filter_map, List.map_map, hpairPred, hpairSnd, List.map_id]
    rw [hhead, count_filter_eq]
    by_cases hq : q x r = true
    · rw [if_pos hq, if_pos hq]
      simp [Nat.add_mul]
      ring
    · rw [if_neg hq, if_neg hq]
      simp

theorem reachable_foldl (trig : ℚ → ℚ × ℚ) {s : State} (h : Reachable trig s)
    (es : List Event) : Reachable trig (es.foldl (reduceState trig) s) := by
  induction es generalizing s with
  | nil => exact h
  | cons e es ih => exact ih (Reachable.step e h)

theorem Vec.scale_one (v : Vec) : v.scale 1 = v := by
  cases v
  simp [Vec.scale]

theorem Vec.len2_ortho (v : Vec) : v.ortho.len2 = v.len2 := by
  cases v
  simp [Vec.ortho, Vec.len2]
  ring

theorem Vec.len2_scale (v : Vec) (d : ℚ) : (v.scale d).len2 = d * d * v.len2 := by
  cases v
  simp [Vec.scale, Vec.len2]
  ring

/-! ## Claim theorems -/

unseal Rat.add Rat.mul Rat.inv Rat.sub Rat.ofScientific in
/-- C1 counterexample: a terminated state fed a time-advance event is NOT
returned unchanged — the tick pipeline runs and, here, even advances `time`
and resets `gameOver`. -/
theorem C1_counterexample_tick_changes_terminated_state :
    sTerm.gameOver = true ∧ reduceState trigZero sTerm (Event.Tick 1) ≠ sTerm := by
  refine ⟨rfl, ?_⟩
  decide

/-- C1 (amended): the reducer has no `terminated` guard: a time-advance on a
state with `terminated = true` is processed exactly like any other tick —
motion, expiry and collision processing all run, `time` advances to the
event's elapsed value, and `terminated` is recomputed from the post-move
craft–obstacle test (it can even revert to `false`).  Post-termination
quiescence is enforced by the session layer unsubscribing, not by the
reducer. -/
theorem C1_reduceState_tick_has_no_terminated_guard (trig : ℚ → ℚ × ℚ) (s : State)
    (elapsed : ℚ) (_h : s.gameOver = true) :
    reduceState trig s (Event.Tick elapsed) = tick s elapsed ∧
    (reduceState trig s (Event.Tick elapsed)).time = elapsed ∧
    ((reduceState trig s (Event.Tick elapsed)).gameOver = true ↔
      ∃ r ∈ s.rocks, bodiesCollided (moveBody s.ship) (moveBody r) = true) := by
  refine ⟨rfl, rfl, ?_⟩
  show shipCollided (movedState s elapsed) = true ↔ _
  rw [shipCollided_iff]
  constructor
  · rintro ⟨r, hmem, hcol⟩
    have hmem' : r ∈ s.rocks.map moveBody := hmem
    rw [List.mem_map] at hmem'
    obtain ⟨r0, hr0, rfl⟩ := hmem'
    exact ⟨r0, hr0, hcol⟩
  · rintro ⟨r0, hr0, hcol⟩
    exact ⟨moveBody r0, List.mem_map_of_mem _ hr0, hcol⟩

/-- Witness for C1: the hypotheses of the amended theorem are satisfiable on
a concrete terminated state, where time indeed advances. -/
theorem C1_witness :
    sTerm.gameOver = true ∧ (reduceState trigZero sTerm (Event.Tick 1)).time = 1 :=
  ⟨rfl, (C1_reduceState_tick_has_no_terminated_guard trigZero sTerm 1 rfl).2.1⟩

unseal Rat.add Rat.mul Rat.inv Rat.sub Rat.ofScientific in
/-- C2 counterexample: with nonzero torque, the orientation is NOT advanced
by the updated angular velocity. -/
theorem C2_counterexample_orientation_not_updated_velocity :
    (moveBody bodyTorque).angle ≠ bodyTorque.angle + (moveBody bodyTorque).rotation := by
  decide

/-- C2 (amended): one integration step satisfies
`angularVelocity' = angularVelocity + torque`, `position' = wrap(position +
velocity)` and `velocity' = velocity + acceleration` as claimed, but the
orientation is advanced by the PRE-update angular velocity:
`orientation' = orientation + angularVelocity`; the claimed equation
`orientation' = orientation + angularVelocity'` holds exactly when the
torque is zero. -/
theorem C2_moveBody_integration_equations (b : Body) :
    (moveBody b).rotation = b.rotation + b.torque ∧
    (moveBody b).angle = b.angle + b.rotation ∧
    (moveBody b).pos = torusWrap (b.pos.add b.vel) ∧
    (moveBody b).vel = b.vel.add b.acc ∧
    ((moveBody b).angle = b.angle + (moveBody b).rotation ↔ b.torque = 0) := by
  refine ⟨rfl, rfl, rfl, rfl, ?_⟩
  show b.angle + b.rotation = b.angle + (b.rotation + b.torque) ↔ b.torque = 0
  constructor
  · intro h
    linarith
  · intro h
    rw [h]
    ring

/-- Witness for C2: the amended equations evaluated on a concrete body. -/
theorem C2_witness :
    (moveBody bodyEdge).angle = bodyEdge.angle + (moveBody bodyEdge).rotation :=
  (C2_moveBody_integration_equations bodyEdge).2.2.2.2.mpr rfl

unseal Rat.add Rat.mul Rat.inv Rat.sub Rat.ofScientific in
/-- C5 counterexample: a position and single-step velocity satisfying all of
the claim's premises for which the wrapped coordinate equals `boundSize`,
hence lies outside the half-open interval `[0, boundSize)`. -/
theorem C5_counterexample_wrap_reaches_boundary :
    (0 ≤ bodyEdge.pos.x ∧ bodyEdge.pos.x < Constants.CanvasSize ∧
     0 ≤ bodyEdge.pos.y ∧ bodyEdge.pos.y < Constants.CanvasSize ∧
     bodyEdge.vel.len2 < Constants.CanvasSize ^ 2) ∧
    (moveBody bodyEdge).pos.x = Constants.CanvasSize ∧
    ¬ (moveBody bodyEdge).pos.x < Constants.CanvasSize := by
  decide

/-- C5 (amended): from a position with both coordinates in
`[0, boundSize)` and a single-step velocity with `|v| < boundSize`, one step
lands in the CLOSED box `[0, boundSize]` (the boundary value is attained
exactly when a coordinate sum hits `boundSize`, since the wrap tests `v > s`
strictly), and the wrap corrects each coordinate by adding or subtracting
`boundSize` at most once. -/
theorem C5_moveBody_pos_in_closed_box (b : Body)
    (hx0 : 0 ≤ b.pos.x) (hx1 : b.pos.x < Constants.CanvasSize)
    (hy0 : 0 ≤ b.pos.y) (hy1 : b.pos.y < Constants.CanvasSize)
    (hv : b.vel.len2 < Constants.CanvasSize ^ 2) :
    (0 ≤ (moveBody b).pos.x ∧ (moveBody b).pos.x ≤ Constants.CanvasSize ∧
     0 ≤ (moveBody b).pos.y ∧ (moveBody b).pos.y ≤ Constants.CanvasSize) ∧
    ((moveBody b).pos.x = b.pos.x + b.vel.x ∨
      (moveBody b).pos.x = b.pos.x + b.vel.x + Constants.CanvasSize ∨
      (moveBody b).pos.x = b.pos.x + b.vel.x - Constants.CanvasSize) ∧
    ((moveBody b).pos.y = b.pos.y + b.vel.y ∨
      (moveBody b).pos.y = b.pos.y + b.vel.y + Constants.CanvasSize ∨
      (moveBody b).pos.y = b.pos.y + b.vel.y - Constants.CanvasSize) := by
  obtain ⟨⟨hxlo, hxhi⟩, hylo, hyhi⟩ := coord_lt_of_len2_lt hv
  have hx := wrapCoord_bounds hx0 hx1 hxlo hxhi
  have hy := wrapCoord_bounds hy0 hy1 hylo hyhi
  have hpx : (moveBody b).pos.x = wrapCoord (b.pos.x + b.vel.x) := rfl
  have hpy : (moveBody b).pos.y = wrapCoord (b.pos.y + b.vel.y) := rfl
  rw [hpx, hpy]
  exact ⟨⟨hx.1, hx.2, hy.1, hy.2⟩, wrapCoord_cases _, wrapCoord_cases _⟩

unseal Rat.add Rat.mul Rat.inv Rat.sub Rat.ofScientific in
/-- Witness for C5: the amended bounds evaluated on a concrete body. -/
theorem C5_witness :
    0 ≤ (moveBody bodyEdge).pos.x ∧ (moveBody bodyEdge).pos.x ≤ Constants.CanvasSize :=
  ⟨(C5_moveBody_pos_in_closed_box bodyEdge (by decide) (by decide) (by decide)
      (by decide) (by decide)).1.1,
   (C5_moveBody_pos_in_closed_box bodyEdge (by decide) (by decide) (by decide)
      (by decide) (by decide)).1.2.1⟩

unseal Rat.add Rat.mul Rat.inv Rat.sub Rat.ofScientific in
/-- C3 counterexample: a state produced by a time-advance whose departed set
holds two entries with the same id — one projectile overlapping two
obstacles at once is listed once per collided pair. -/
theorem C3_counterexample_departed_has_duplicate_ids :
    ¬ (((reduceState trigZero sOneBulletTwoRocks (Event.Tick 0)).exit.map Body.id).Nodup) := by
  decide

/-- C3 (amended): the departed set is NOT deduplicated by identity: every
transition concatenates the expired projectiles with one entry per collided
(projectile, obstacle) pair on each side, so a projectile overlapping `k`
obstacles (or an obstacle overlapped by `k` projectiles) appears `k` times;
duplicate removal is tolerated by the presentation layer instead. -/
theorem C3_departed_concatenated_not_deduplicated (s : State) (elapsed : ℚ) (b r : Body) :
    (tick s elapsed).exit =
      expiredBullets s elapsed ++ collidedBullets (movedState s elapsed)
        ++ collidedRocks (movedState s elapsed) ∧
    (handleCollisions s).exit = s.exit ++ collidedBullets s ++ collidedRocks s ∧
    (collidedBullets s).count b =
      s.bullets.count b * (s.rocks.filter fun r' => bodiesCollided b r').length ∧
    (collidedRocks s).count r =
      (s.bullets.filter fun b' => bodiesCollided b' r).length * s.rocks.count r := by
  refine ⟨rfl, rfl, ?_, ?_⟩
  · exact count_fst_collided s.bullets s.rocks bodiesCollided b
  · exact count_snd_collided s.bullets s.rocks bodiesCollided r

unseal Rat.add Rat.mul Rat.inv Rat.sub Rat.ofScientific in
/-- C4 counterexample: one above-threshold obstacle hit by two projectiles
in the same step is removed once but spawns FOUR children, and `nextId`
grows by four, not by two per destroyed obstacle. -/
theorem C4_counterexample_double_hit_spawns_four :
    ((sTwoBulletsOneRock.rocks.filter fun r =>
        elem (collidedRocks sTwoBulletsOneRock) r).length = 1 ∧
     (∀ r ∈ sTwoBulletsOneRock.rocks, Constants.StartRockRadius / 4 ≤ r.radius) ∧
     except sTwoBulletsOneRock.rocks (collidedRocks sTwoBulletsOneRock) = []) ∧
    (newRocks sTwoBulletsOneRock).length = 4 ∧
    (handleCollisions sTwoBulletsOneRock).objCount ≠ sTwoBulletsOneRock.objCount + 2 := by
  decide

/-- C4 (amended): fragmentation is per collided (projectile, obstacle) PAIR,
not per removed obstacle: each pair whose obstacle has
`radius ≥ startRadius/4` contributes exactly two children — at the parent's
position, radius half the parent's, velocities the parent's velocity rotated
∓90° (`(y, -x)` and `(-y, x)`, preserving squared speed), `createdAt` the
current time, fresh consecutive ids minted from `nextId` — pairs below the
threshold contribute none, and `nextId` grows by two per above-threshold
pair (so an obstacle hit by `k` projectiles at once yields `2k` children). -/
theorem C4_fragmentation_per_collided_pair (s : State) :
    (handleCollisions s).objCount = s.objCount + (newRocks s).length ∧
    (newRocks s).length =
      2 * ((collidedRocks s).filter fun r =>
        Constants.StartRockRadius / 4 ≤ r.radius).length ∧
    (∀ r : Body, r.radius < Constants.StartRockRadius / 4 → spawnChildren r = []) ∧
    (∀ c ∈ newRocks s, ∃ r ∈ collidedRocks s,
        Constants.StartRockRadius / 4 ≤ r.radius ∧
        c.pos = r.pos ∧ c.radius = r.radius / 2 ∧
        (c.vel = r.vel.ortho ∨ c.vel = r.vel.ortho.scale (-1)) ∧
        c.vel.len2 = r.vel.len2 ∧
        c.createTime = s.time ∧ c.viewType = ViewType.rock) ∧
    ((newRocks s).map Body.id =
      (List.range (newRocks s).length).map fun i => "rock" ++ Nat.repr (s.objCount + i)) := by
  refine ⟨rfl, ?_, ?_, ?_, ?_⟩
  · rw [newRocks_length]
    exact length_flatMap_spawnChildren _
  · exact fun r h => spawnChildren_below r h
  · intro c hc
    obtain ⟨spec, hspec, i, rfl⟩ := mem_newRocks hc
    rw [mem_flatMap] at hspec
    obtain ⟨r, hr, hcr⟩ := hspec
    obtain ⟨hth, hch⟩ := mem_spawnChildren hcr
    refine ⟨r, hr, hth, ?_⟩
    rcases hch with rfl | rfl
    · refine ⟨rfl, rfl, Or.inl ?_, ?_, rfl, rfl⟩
      · show r.vel.ortho.scale 1 = r.vel.ortho
        exact Vec.scale_one _
      · show (r.vel.ortho.scale 1).len2 = r.vel.len2
        rw [Vec.scale_one, Vec.len2_ortho]
    · refine ⟨rfl, rfl, Or.inr rfl, ?_, rfl, rfl⟩
      show (r.vel.ortho.scale (-1)).len2 = r.vel.len2
      rw [Vec.len2_scale, Vec.len2_ortho]
      ring
  · rw [newRocks_length]
    exact newRocks_map_id s

unseal Rat.add Rat.mul Rat.inv Rat.sub Rat.ofScientific in
/-- Witness for C4: the amended child characterisation holds of a concrete
child of the doubly-hit obstacle. -/
theorem C4_witness :
    createCircle .rock 7 0 15 Vec.Zero ⟨0, -1⟩ ∈ newRocks sTwoBulletsOneRock ∧
    ∃ r ∈ collidedRocks sTwoBulletsOneRock,
      Constants.StartRockRadius / 4 ≤ r.radius ∧
      (createCircle .rock 7 0 15 Vec.Zero ⟨0, -1⟩).pos = r.pos ∧
      (createCircle .rock 7 0 15 Vec.Zero ⟨0, -1⟩).radius = r.radius / 2 ∧
      ((createCircle .rock 7 0 15 Vec.Zero ⟨0, -1⟩).vel = r.vel.ortho ∨
        (createCircle .rock 7 0 15 Vec.Zero ⟨0, -1⟩).vel = r.vel.ortho.scale (-1)) ∧
      (createCircle .rock 7 0 15 Vec.Zero ⟨0, -1⟩).vel.len2 = r.vel.len2 ∧
      (createCircle .rock 7 0 15 Vec.Zero ⟨0, -1⟩).createTime = sTwoBulletsOneRock.time ∧
      (createCircle .rock 7 0 15 Vec.Zero ⟨0, -1⟩).viewType = ViewType.rock :=
  ⟨by decide,
   (C4_fragmentation_per_collided_pair sTwoBulletsOneRock).2.2.2.1
     (createCircle .rock 7 0 15 Vec.Zero ⟨0, -1⟩) (by decide)⟩

/-- C8: on every time-advance the craft–obstacle termination test and the
projectile–obstacle pairing see only the obstacles present before
fragmentation: `terminated` is set only by a pre-existing obstacle, never by
a freshly spawned child (which nonetheless joins the obstacle collection),
and every collided pair draws from the pre-collision collections. -/
theorem C8_children_not_tested_in_spawning_step (s : State) :
    ((handleCollisions s).gameOver = true → ∃ r ∈ s.rocks, bodiesCollided s.ship r = true) ∧
    ((∀ r ∈ s.rocks, bodiesCollided s.ship r = false) →
      (handleCollisions s).gameOver = false) ∧
    (∀ c ∈ newRocks s, c ∈ (handleCollisions s).rocks) ∧
    (∀ p ∈ collidedBulletsAndRocks s, p.1 ∈ s.bullets ∧ p.2 ∈ s.rocks) := by
  refine ⟨?_, ?_, ?_, ?_⟩
  · intro h
    exact (shipCollided_iff s).mp h
  · intro hall
    show shipCollided s = false
    cases hcase : shipCollided s with
    | false => rfl
    | true =>
      obtain ⟨r, hr, hc⟩ := (shipCollided_iff s).mp hcase
      rw [hall r hr] at hc
      exact absurd hc (by simp)
  · intro c hc
    show c ∈ except s.rocks (collidedRocks s) ++ newRocks s
    exact List.mem_append_right _ hc
  · intro p hp
    rw [collidedBulletsAndRocks, List.mem_filter] at hp
    have hmem := hp.1
    rw [allBulletsAndRocks, mem_flatMap] at hmem
    obtain ⟨b, hb, hpr⟩ := hmem
    rw [List.mem_map] at hpr
    obtain ⟨r, hr, rfl⟩ := hpr
    exact ⟨hb, hr⟩

unseal Rat.add Rat.mul Rat.inv Rat.sub Rat.ofScientific in
/-- Witness for C8: in a concrete state where no pre-existing obstacle
touches the craft, the step spawns children yet leaves `terminated` false. -/
theorem C8_witness :
    (∀ r ∈ sTwoBulletsOneRock.rocks, bodiesCollided sTwoBulletsOneRock.ship r = false) ∧
    (handleCollisions sTwoBulletsOneRock).gameOver = false ∧
    createCircle .rock 7 0 15 Vec.Zero ⟨0, -1⟩ ∈ (handleCollisions sTwoBulletsOneRock).rocks :=
  ⟨by decide,
   (C8_children_not_tested_in_spawning_step sTwoBulletsOneRock).2.1 (by decide),
   (C8_children_not_tested_in_spawning_step sTwoBulletsOneRock).2.2.1
     (createCircle .rock 7 0 15 Vec.Zero ⟨0, -1⟩) (by decide)⟩

/-- C6: the id counter never decreases, increases by exactly one per fire,
by one per fragmentation child within a tick, and in every reachable state
no two simultaneously live bodies — craft, projectiles, obstacles — share
an id. -/
theorem C6_nextId_monotone_and_live_ids_unique (trig : ℚ → ℚ × ℚ) :
    (∀ s : State, (reduceState trig s Event.Shoot).objCount = s.objCount + 1) ∧
    (∀ s : State, (handleCollisions s).objCount = s.objCount + (newRocks s).length) ∧
    (∀ (s : State) (e : Event), s.objCount ≤ (reduceState trig s e).objCount) ∧
    (∀ s : State, Reachable trig s →
      (s.ship.id :: (s.bullets ++ s.rocks).map Body.id).Nodup) := by
  refine ⟨fun s => rfl, fun s => rfl, ?_,
    fun s h => goodIds_all_ids_nodup (reachable_goodIds h)⟩
  intro s e
  cases e with
  | Tick elapsed => exact Nat.le_add_right _ _
  | Rotate direction => exact Nat.le.refl
  | Thrust isOn => exact Nat.le.refl
  | Shoot => exact Nat.le_succ _

unseal Rat.add Rat.mul Rat.inv Rat.sub Rat.ofScientific in
/-- Witness for C6: id uniqueness evaluated on a concrete reachable state. -/
theorem C6_witness :
    ((initialState dirsZero).ship.id ::
      ((initialState dirsZero).bullets ++ (initialState dirsZero).rocks).map Body.id).Nodup :=
  (C6_nextId_monotone_and_live_ids_unique trigZero).2.2.2 (initialState dirsZero)
    (Reachable.init dirsZero)

/-- C7: the reducer is deterministic — two runs over the same event sequence
from the same initial state emit identical state sequences. -/
theorem C7_reducer_runs_deterministic (trig : ℚ → ℚ × ℚ) (s : State) (es : List Event)
    (l1 l2 : List State) (h1 : RunSeq trig s es l1) (h2 : RunSeq trig s es l2) :
    l1 = l2 := by
  revert h2
  induction h1 generalizing l2 with
  | nil s0 =>
    intro h2
    cases h2
    rfl
  | cons e hrest ih =>
    intro h2
    cases h2 with
    | cons _ h2rest => rw [ih _ h2rest]

/-- Witness for C7: two concrete runs of the same one-event sequence, and
their emitted sequences agree. -/
theorem C7_witness :
    RunSeq trigZero (initialState dirsZero) [Event.Rotate 1]
      [reduceState trigZero (initialState dirsZero) (Event.Rotate 1)] ∧
    [reduceState trigZero (initialState dirsZero) (Event.Rotate 1)] =
      [reduceState trigZero (initialState dirsZero) (Event.Rotate 1)] :=
  ⟨RunSeq.cons _ (RunSeq.nil _),
   C7_reducer_runs_deterministic trigZero (initialState dirsZero) [Event.Rotate 1] _ _
     (RunSeq.cons _ (RunSeq.nil _)) (RunSeq.cons _ (RunSeq.nil _))⟩

set_option maxRecDepth 40000 in
unseal Rat.add Rat.mul Rat.inv Rat.sub Rat.ofScientific in
/-- C9: the fire transition appends one projectile placed at exactly
`craft.position + craft.radius · unitVector(craft.orientation)` with no
toroidal wrap applied; consequently from a reachable state with the craft
near the top edge the just-fired projectile's position lies outside
`[0, boundSize)` (here `y = -5`). -/
theorem C9_fire_position_unwrapped :
    (∀ (trig : ℚ → ℚ × ℚ) (s : State),
      (reduceState trig s Event.Shoot).bullets =
        s.bullets ++
          [createCircle .bullet s.objCount s.time Constants.BulletRadius
            (s.ship.pos.add ((Vec.unitVecInDirection trig s.ship.angle).scale s.ship.radius))
            (s.ship.vel.add
              ((Vec.unitVecInDirection trig s.ship.angle).scale Constants.BulletVelocity))]) ∧
    (∃ s : State, Reachable trigZero s ∧
      ∃ b ∈ (reduceState trigZero s Event.Shoot).bullets, b.pos.y < 0) := by
  refine ⟨fun trig s => rfl, ?_⟩
  refine ⟨driveToEdge.foldl (reduceState trigZero) (initialState dirsZero),
    reachable_foldl trigZero (Reachable.init dirsZero) driveToEdge, ?_⟩
  decide

/-- C10: projectile expiry is the strict test `elapsed − createdAt > 100`:
an age of exactly 100 stays active and is integrated into the moved state
handed to collision processing, while the declared `BulletExpirationTime`
constant (1000) is not the threshold used — a projectile of age 500 is
already expired although 500 is far below 1000. -/
theorem C10_expiry_threshold_is_100_not_the_constant :
    (∀ (elapsed : ℚ) (b : Body), elapsed - b.createTime = 100 → expired elapsed b = false) ∧
    (∀ (s : State) (elapsed : ℚ) (b : Body), b ∈ s.bullets → expired elapsed b = false →
      b ∈ activeBullets s elapsed ∧ moveBody b ∈ (movedState s elapsed).bullets) ∧
    (∀ (s : State) (elapsed : ℚ), tick s elapsed = handleCollisions (movedState s elapsed)) ∧
    Constants.BulletExpirationTime = 1000 ∧
    (∀ (elapsed : ℚ) (b : Body), elapsed - b.createTime = 500 →
      expired elapsed b = true ∧ elapsed - b.createTime < Constants.BulletExpirationTime) := by
  refine ⟨?_, ?_, fun s elapsed => rfl, rfl, ?_⟩
  · intro e b h
    unfold expired
    rw [decide_eq_false_iff_not]
    rw [h]
    norm_num
  · intro s e b hmem hexp
    have hact : b ∈ activeBullets s e := by
      rw [activeBullets, List.mem_filter]
      exact ⟨hmem, by simp [hexp]⟩
    exact ⟨hact, List.mem_map_of_mem _ hact⟩
  · intro e b h
    constructor
    · unfold expired
      rw [decide_eq_true_eq, h]
      norm_num
    · rw [h, Constants.BulletExpirationTime]
      norm_num

unseal Rat.add Rat.mul Rat.inv Rat.sub Rat.ofScientific in
/-- Witness for C10: a concrete projectile of age exactly 100 is kept. -/
theorem C10_witness :
    expired 100 (createCircle .bullet 5 0 Constants.BulletRadius ⟨100, 100⟩ Vec.Zero) = false ∧
    createCircle .bullet 5 0 Constants.BulletRadius ⟨100, 100⟩ Vec.Zero ∈
      activeBullets sAgedBullet 100 :=
  ⟨(C10_expiry_threshold_is_100_not_the_constant).1 100 _ (by decide),
   ((C10_expiry_threshold_is_100_not_the_constant).2.1 sAgedBullet 100 _ (by decide)
     ((C10_expiry_threshold_is_100_not_the_constant).1 100 _ (by decide))).1⟩

end Asteroids
